import Mathlib

/-!
Shallow embedding of the real-time exercise capture pipeline of the
moveright backend: the threaded camera model (app/models/camera.py), the
video source resolver (app/models/video_source.py), the joint-angle
computation (app/models/pose_model.py), and the per-user session registry
and realtime event handlers of app/api/camera_namespace.py and
app/api/pushup_camera_namespace.py.

Modelling conventions: raster frames and encoded byte buffers are abstract
tokens (Nat); wall-clock timestamps are rationals; the external landmark
analyzer, the overlay renderer (draw + JPEG encode, none = encoding
failure) and the base64 encoder are parameters, since the source consumes
them as opaque collaborators; python dicts are association lists with
unique keys; the background capture loop and the streaming loop are driven
by explicit schedules of per-iteration inputs, each input recording what
the shared mutable state (device read result, running flag, stream flag)
looked like at that iteration.
-/

namespace MoveRight

/-- A decoded raster frame, abstracted to a token. -/
abbrev Frame := Nat

/-- State of one Camera object from app/models/camera.py: source
descriptor, device-open flag, latest-frame slot, running flag, fps
counters, released flag, plus an object identity cid and the owning
user id. -/
structure Camera where
  cid : Nat
  userId : Nat
  source : Nat
  opened : Bool
  frame : Option Frame
  running : Bool
  fps : ℚ
  frameCount : Nat
  lastTime : ℚ
  released : Bool
  deriving DecidableEq

/-- Camera.__init__ after source resolution: no frame yet, running flag
set, fps 0.0, frame count 0, window start at construction time t0. -/
def Camera.init (cid userId source : Nat) (opened : Bool) (t0 : ℚ) : Camera :=
  { cid := cid, userId := userId, source := source, opened := opened,
    frame := none, running := true, fps := 0, frameCount := 0,
    lastTime := t0, released := false }

/-- One scheduled device read of the capture loop: the wall-clock time of
the iteration and the read result (some frame on success, none on a failed
read). -/
structure ReadEvent where
  t : ℚ
  frame : Option Frame
  deriving DecidableEq

/-- One iteration of Camera._update_frame: if the running flag is clear
the loop has exited and nothing changes; on a successful read the frame is
published and the fps window updated (rollover when at least one second
elapsed since the window start); on a failed read the loop logs and backs
off, changing nothing. -/
def Camera.updateStep (c : Camera) (e : ReadEvent) : Camera :=
  if c.running then
    match e.frame with
    | some f =>
      let c1 := { c with frame := some f, frameCount := c.frameCount + 1 }
      if 1 ≤ e.t - c1.lastTime then
        { c1 with fps := (c1.frameCount : ℚ) / (e.t - c1.lastTime),
                  frameCount := 0, lastTime := e.t }
      else c1
    | none => c
  else c

/-- The capture loop run over a schedule of reads. -/
def Camera.updateLoop (c : Camera) (evs : List ReadEvent) : Camera :=
  evs.foldl Camera.updateStep c

/-- Camera.get_frame: a copy of the latest frame, or none. -/
def Camera.get_frame (c : Camera) : Option Frame := c.frame

/-- python round(x, 2). -/
def roundTo2 (q : ℚ) : ℚ := ((round (q * 100) : ℤ) : ℚ) / 100

/-- Camera.get_fps: the measured fps rounded to two decimals. -/
def Camera.get_fps (c : Camera) : ℚ := roundTo2 c.fps

/-- Camera.is_running. -/
def Camera.is_running (c : Camera) : Bool := c.running

/-- Camera.stop: clear the running flag (the loop exits at its next guard
check), join with a bounded timeout, release the device if it was
opened. -/
def Camera.stop (c : Camera) : Camera :=
  { c with running := false, released := c.released || c.opened }

/-- What a probed device does in VideoSource.find_source: whether
cv2.VideoCapture(i).isOpened() holds and whether the single test read
yields a non-empty frame. -/
structure DeviceBehavior where
  opens : Bool
  readOk : Bool
  deriving DecidableEq

/-- Device-handle side effects of the resolver: constructing a capture for
index i, and calling release on it. -/
inductive ProbeEvent where
  | acquire (i : Nat)
  | release (i : Nat)
  deriving DecidableEq

/-- The probing loop of VideoSource.find_source over a candidate list: a
capture is constructed for each index in order; when it opens, one frame
is read and the capture released; the first index whose read succeeds is
returned.  When the capture does not open, no release call is made. -/
def probeSources (env : Nat → DeviceBehavior) : List Nat → Option Nat × List ProbeEvent
  | [] => (none, [])
  | i :: rest =>
    if (env i).opens then
      if (env i).readOk then (some i, [ProbeEvent.acquire i, ProbeEvent.release i])
      else
        let r := probeSources env rest
        (r.1, ProbeEvent.acquire i :: ProbeEvent.release i :: r.2)
    else
      let r := probeSources env rest
      (r.1, ProbeEvent.acquire i :: r.2)

/-- VideoSource.find_source: probe local device indices 0, 1, 2 in
order. -/
def find_source (env : Nat → DeviceBehavior) : Option Nat × List ProbeEvent :=
  probeSources env [0, 1, 2]

/-- One field of an emitted realtime message payload (a python dict entry
of a frame message). -/
inductive MsgField where
  | image (data : Nat)
  | analysis (a : Option Nat)
  deriving DecidableEq

/-- Observable actions of one streaming-loop iteration: pushing a frame
message, sleeping for the fixed inter-tick delay (milliseconds), or
logging a caught exception. -/
inductive StreamEvent where
  | frame (payload : List MsgField)
  | sleep (ms : Nat)
  | errorLog
  deriving DecidableEq

/-- What one iteration of a streaming loop observes of the shared state:
camera.is_running(), the active-stream flag, the latest raw frame, the
rendered jpeg frame (none when no frame or encoding failed), and whether
the tick body raises an exception. -/
structure Tick where
  running : Bool
  active : Bool
  raw : Option Frame
  jpeg : Option Nat
  raises : Bool
  deriving DecidableEq

/-- stream_frames of camera_namespace.py, run over a schedule of ticks:
loop while the camera runs and the stream flag is set; a raising tick is
caught, logged, and breaks the loop; a tick with no jpeg frame skips to
the next iteration; otherwise one frame message carrying the encoded image
and the analysis of the raw frame (null when no raw frame or no landmarks)
is pushed, followed by the fixed 33 ms sleep. -/
def stream_frames (an : Frame → Option Nat) (enc : Nat → Nat) :
    List Tick → List StreamEvent
  | [] => []
  | t :: ts =>
    if t.running && t.active then
      if t.raises then [StreamEvent.errorLog]
      else
        match t.jpeg with
        | none => stream_frames an enc ts
        | some j =>
          StreamEvent.frame [MsgField.image (enc j), MsgField.analysis (t.raw.bind an)]
            :: StreamEvent.sleep 33 :: stream_frames an enc ts
    else []

/-- stream_frames of pushup_camera_namespace.py: same loop but the pushed
message carries only the image, and the body has no try/except, so a
raising tick terminates the loop uncaught (the Bool records an escaped
exception) without pushing or logging anything. -/
def pushup_stream_frames (enc : Nat → Nat) : List Tick → List StreamEvent × Bool
  | [] => ([], false)
  | t :: ts =>
    if t.running && t.active then
      if t.raises then ([], true)
      else
        match t.jpeg with
        | none => pushup_stream_frames enc ts
        | some j =>
          let r := pushup_stream_frames enc ts
          (StreamEvent.frame [MsgField.image (enc j)] :: StreamEvent.sleep 33 :: r.1, r.2)
    else ([], false)

/-- Association-list lookup, modelling python dict access keyed by user or
session id. -/
def lookupKey {α : Type} (m : List (Nat × α)) (k : Nat) : Option α :=
  match m with
  | [] => none
  | (k0, v) :: rest => if k0 = k then some v else lookupKey rest k

/-- python del d[k]. -/
def eraseKey {α : Type} (m : List (Nat × α)) (k : Nat) : List (Nat × α) :=
  m.filter (fun p => p.1 != k)

/-- python d[k] = v. -/
def setKey {α : Type} (m : List (Nat × α)) (k : Nat) (v : α) : List (Nat × α) :=
  (k, v) :: eraseKey m k

/-- python active_streams[u] = True on a membership-set model of the
flag dict. -/
def insertStream (streams : List Nat) (u : Nat) : List Nat :=
  u :: streams.filter (fun x => x != u)

/-- The module-level mutable state of one camera namespace:
active_cameras (user id to the registered Camera object), the Camera
objects removed from the registry (python objects that outlive their
registry entry), active_streams (user ids whose flag is True), and
session_to_user. -/
structure NsState where
  cams : List (Nat × Camera)
  retired : List Camera
  streams : List Nat
  sess : List (Nat × Nat)
  deriving DecidableEq

/-- Observable actions of a namespace handler: socketio emits, scheduling
a background streaming task, and Camera lifecycle calls. -/
inductive NsEvent where
  | emitError (msg : String)
  | emitFrame (payload : List MsgField)
  | emitStreamStarted
  | emitStreamStopped
  | startTask (userId : Nat)
  | stopCam (cid : Nat)
  | newCam (cid : Nat)
  deriving DecidableEq

/-- Response of the camera start endpoints. -/
inductive StartResp where
  | started (fps : ℚ)
  | failed (code : Nat)
  deriving DecidableEq

/-- CameraStart.post of camera_namespace.py: first stop and deregister any
existing camera of the user; then resolve the source (auto-detect when the
request gives none); construction fails with a 500 response when no source
is found (the old camera stays stopped and deregistered); otherwise the
new Camera is constructed, advanced by the reads its capture thread
performs before the response is built, registered, and the response
reports its current fps. -/
def cameraStartPost (s : NsState) (u : Nat) (sourceArg : Option Nat)
    (env : Nat → DeviceBehavior) (newCid : Nat) (t0 : ℚ)
    (reads : List ReadEvent) : NsState × StartResp × List NsEvent :=
  let step1 :=
    match lookupKey s.cams u with
    | none => (s, ([] : List NsEvent))
    | some c =>
      ({ s with cams := eraseKey s.cams u, retired := Camera.stop c :: s.retired },
       [NsEvent.stopCam c.cid])
  let src : Option Nat :=
    match sourceArg with
    | some v => some v
    | none => (find_source env).1
  match src with
  | none => (step1.1, StartResp.failed 500, step1.2)
  | some v =>
    let cam := Camera.updateLoop (Camera.init newCid u v (env v).opens t0) reads
    ({ step1.1 with cams := setKey step1.1.cams u cam },
     StartResp.started (Camera.get_fps cam),
     step1.2 ++ [NsEvent.newCam newCid])

/-- CameraStart.post of pushup_camera_namespace.py: a user who already has
a registered camera is rejected with a 400 response and nothing else
happens; otherwise the source defaults to the hardcoded URL and the new
Camera is constructed and registered. -/
def pushupCameraStartPost (s : NsState) (u : Nat) (sourceArg : Option Nat)
    (defaultSrc : Nat) (newCid : Nat) (t0 : ℚ) (reads : List ReadEvent) :
    NsState × StartResp × List NsEvent :=
  match lookupKey s.cams u with
  | some _ => (s, StartResp.failed 400, [])
  | none =>
    let v := sourceArg.getD defaultSrc
    let cam := Camera.updateLoop (Camera.init newCid u v true t0) reads
    ({ s with cams := setKey s.cams u cam },
     StartResp.started (Camera.get_fps cam), [NsEvent.newCam newCid])

/-- handle_start_stream of camera_namespace.py: a missing exercise type is
rejected before anything else; then the connection-to-user binding is
recorded; only then is the camera registry consulted, a missing camera
yielding an error; otherwise the stream flag is set, the background task
scheduled, and the acknowledgement emitted. -/
def handle_start_stream (s : NsState) (sid uid : Nat) (exercise : Option String) :
    NsState × List NsEvent :=
  match exercise with
  | none => (s, [NsEvent.emitError "Exercise type required"])
  | some _ =>
    let s1 := { s with sess := setKey s.sess sid uid }
    match lookupKey s1.cams uid with
    | none => (s1, [NsEvent.emitError "No active camera session"])
    | some _ =>
      ({ s1 with streams := insertStream s1.streams uid },
       [NsEvent.startTask uid, NsEvent.emitStreamStarted])

/-- handle_start_stream of pushup_camera_namespace.py: as the camera
namespace handler but with no exercise-type check. -/
def pushup_handle_start_stream (s : NsState) (sid uid : Nat) :
    NsState × List NsEvent :=
  let s1 := { s with sess := setKey s.sess sid uid }
  match lookupKey s1.cams uid with
  | none => (s1, [NsEvent.emitError "No active camera session"])
  | some _ =>
    ({ s1 with streams := insertStream s1.streams uid },
     [NsEvent.startTask uid, NsEvent.emitStreamStarted])

/-- handle_disconnect, identical in both namespace modules: an unknown
session logs and returns; otherwise the bound user's stream flag is
cleared if set, the user's camera (if registered) is stopped and
deregistered, and the session binding is removed. -/
def handle_disconnect (s : NsState) (sid : Nat) : NsState × List NsEvent :=
  match lookupKey s.sess sid with
  | none => (s, [])
  | some uid =>
    let streams1 := s.streams.filter (fun x => x != uid)
    let step :=
      match lookupKey s.cams uid with
      | none => (s.cams, s.retired, ([] : List NsEvent))
      | some c => (eraseKey s.cams uid, Camera.stop c :: s.retired, [NsEvent.stopCam c.cid])
    ({ cams := step.1, retired := step.2.1, streams := streams1,
       sess := eraseKey s.sess sid }, step.2.2)

/-- handle_frame_request of camera_namespace.py: a user with no registered
camera or a non-running camera gets an error; with no renderable frame an
error; otherwise a single frame message carrying the encoded image and the
analysis of the raw frame (null when absent). -/
def handle_frame_request (an : Frame → Option Nat) (render : Frame → Option Nat)
    (enc : Nat → Nat) (s : NsState) (uid : Nat) : List NsEvent :=
  match lookupKey s.cams uid with
  | none => [NsEvent.emitError "No active camera session"]
  | some cam =>
    if !cam.is_running then [NsEvent.emitError "Camera not running"]
    else
      let analysis := (Camera.get_frame cam).bind an
      match (Camera.get_frame cam).bind render with
      | none => [NsEvent.emitError "No frame available"]
      | some j =>
        [NsEvent.emitFrame [MsgField.image (enc j), MsgField.analysis analysis]]

/-- handle_frame_request of pushup_camera_namespace.py: same checks, but
the frame message carries only the image. -/
def pushup_handle_frame_request (render : Frame → Option Nat) (enc : Nat → Nat)
    (s : NsState) (uid : Nat) : List NsEvent :=
  match lookupKey s.cams uid with
  | none => [NsEvent.emitError "No active camera session"]
  | some cam =>
    if !cam.is_running then [NsEvent.emitError "Camera not running"]
    else
      match (Camera.get_frame cam).bind render with
      | none => [NsEvent.emitError "No frame available"]
      | some j => [NsEvent.emitFrame [MsgField.image (enc j)]]

/-- The guard under which one streaming-loop tick makes progress without
breaking: camera running, stream flag set, no exception raised. -/
def tickOk (t : Tick) : Bool := t.running && t.active && !t.raises

/-- The payloads of the frame messages among a list of stream events. -/
def framePayloads (evs : List StreamEvent) : List (List MsgField) :=
  evs.filterMap (fun e =>
    match e with
    | StreamEvent.frame p => some p
    | _ => none)

/-- Whether a stream event is a frame message carrying an analysis
field. -/
def msgHasAnalysis : StreamEvent → Bool
  | StreamEvent.frame p =>
    p.any (fun f =>
      match f with
      | MsgField.analysis _ => true
      | _ => false)
  | _ => false

/-- Whether a Camera object is a live capture loop owned by user u: its
owner is u and its running flag is still set. -/
def ownedRunning (u : Nat) (c : Camera) : Bool := c.userId == u && c.running

/-- The number of live capture loops owned by user u across every Camera
object of the namespace, registered or already deregistered. -/
def liveLoops (s : NsState) (u : Nat) : Nat :=
  ((s.cams.map Prod.snd ++ s.retired).filter (ownedRunning u)).length

/-- A synthetic feed of exactly 30 successful reads spread evenly over the
first second after window start 0. -/
def feed30 : List ReadEvent :=
  (List.range 30).map (fun (k : Nat) => { t := ((k : ℚ) + 1) / 30, frame := some k })

/-- A device environment where index 0 fails to open and every other index
opens and reads fine. -/
def envB : Nat → DeviceBehavior :=
  fun i => if i = 0 then { opens := false, readOk := false }
           else { opens := true, readOk := true }

/-- A running camera object owned by user 1. -/
def camA : Camera := Camera.init 0 1 5 true 0

/-- A running camera object owned by user 7. -/
def camB : Camera := Camera.init 2 7 5 true 0

/-- Namespace state where user 1 has a registered running camera. -/
def sOne : NsState := { cams := [(1, camA)], retired := [], streams := [], sess := [] }

/-- Empty namespace state. -/
def sEmpty : NsState := { cams := [], retired := [], streams := [], sess := [] }

/-- Namespace state where session 1 is bound to user 7 who has a
registered camera and an active stream flag. -/
def sBound : NsState :=
  { cams := [(7, camB)], retired := [], streams := [7], sess := [(1, 7)] }

/-- Namespace state where user 1 has a registered but stopped camera. -/
def sStopped : NsState :=
  { cams := [(1, Camera.stop camA)], retired := [], streams := [], sess := [] }

/-- A streaming tick with a frame available and nothing going wrong. -/
def tickGood : Tick :=
  { running := true, active := true, raw := some 2, jpeg := some 5, raises := false }

/-- A streaming tick whose body raises an exception. -/
def tickRaise : Tick :=
  { running := true, active := true, raw := some 2, jpeg := some 5, raises := true }

/-- atan2(y, x) with the numpy convention, as the argument of the complex
number x + y i, with range (-pi, pi]. -/
noncomputable def atan2 (y x : ℝ) : ℝ := Complex.arg { re := x, im := y }

/-- PoseModel.calculate_joint_angle over exact reals: the absolute
difference of the two endpoint directions seen from the vertex p2, in
degrees, folded into [0, 180] by replacing a value above 180 with 360
minus it. -/
noncomputable def calculate_joint_angle (p1 p2 p3 : ℝ × ℝ) : ℝ :=
  let radians := atan2 (p3.2 - p2.2) (p3.1 - p2.1) - atan2 (p1.2 - p2.2) (p1.1 - p2.1)
  let angle := |radians * (180 / Real.pi)|
  if 180 < angle then 360 - angle else angle

/-! Capture-loop lemmas. -/

lemma updateStep_of_not_running (c : Camera) (e : ReadEvent) (h : c.running = false) :
    Camera.updateStep c e = c := by
  simp [Camera.updateStep, h]

lemma updateLoop_of_not_running (c : Camera) (evs : List ReadEvent) (h : c.running = false) :
    Camera.updateLoop c evs = c := by
  induction evs with
  | nil => rfl
  | cons e evs ih =>
    simp only [Camera.updateLoop, List.foldl_cons] at ih ⊢
    rw [updateStep_of_not_running c e h]
    exact ih

lemma updateStep_preserves (c : Camera) (e : ReadEvent) :
    (Camera.updateStep c e).userId = c.userId
    ∧ (Camera.updateStep c e).running = c.running
    ∧ (Camera.updateStep c e).cid = c.cid := by
  by_cases hr : c.running = true
  · cases hf : e.frame with
    | none => simp [Camera.updateStep, hr, hf]
    | some f =>
      by_cases ht : (1 : ℚ) ≤ e.t - c.lastTime
      · simp [Camera.updateStep, hr, hf, ht]
      · simp [Camera.updateStep, hr, hf, ht]
  · simp [Camera.updateStep, hr]

lemma updateLoop_preserves (c : Camera) (evs : List ReadEvent) :
    (Camera.updateLoop c evs).userId = c.userId
    ∧ (Camera.updateLoop c evs).running = c.running
    ∧ (Camera.updateLoop c evs).cid = c.cid := by
  induction evs generalizing c with
  | nil => exact ⟨rfl, rfl, rfl⟩
  | cons e evs ih =>
    simp only [Camera.updateLoop, List.foldl_cons] at ih ⊢
    obtain ⟨h1, h2, h3⟩ := updateStep_preserves c e
    obtain ⟨g1, g2, g3⟩ := ih (Camera.updateStep c e)
    exact ⟨g1.trans h1, g2.trans h2, g3.trans h3⟩

lemma fps_zero_within_window (c : Camera) (reads : List ReadEvent)
    (hf : c.fps = 0) (hl : ∀ e ∈ reads, e.t < c.lastTime + 1) :
    (Camera.updateLoop c reads).fps = 0
    ∧ (Camera.updateLoop c reads).lastTime = c.lastTime := by
  induction reads generalizing c with
  | nil => exact ⟨hf, rfl⟩
  | cons e evs ih =>
    have he : e.t < c.lastTime + 1 := hl e (by simp)
    have hnot : ¬ ((1 : ℚ) ≤ e.t - c.lastTime) := by linarith
    have hstep : (Camera.updateStep c e).fps = c.fps
        ∧ (Camera.updateStep c e).lastTime = c.lastTime := by
      by_cases hr : c.running = true
      · cases hfr : e.frame with
        | none => simp [Camera.updateStep, hr, hfr]
        | some f => simp [Camera.updateStep, hr, hfr, hnot]
      · simp [Camera.updateStep, hr]
    simp only [Camera.updateLoop, List.foldl_cons] at ih ⊢
    have hrest := ih (Camera.updateStep c e) (hstep.1.trans hf)
      (fun e2 h2 => by rw [hstep.2]; exact hl e2 (List.mem_cons_of_mem _ h2))
    exact ⟨hrest.1, hrest.2.trans hstep.2⟩

lemma get_fps_zero_within (cid u v : Nat) (op : Bool) (t0 : ℚ) (reads : List ReadEvent)
    (h : ∀ e ∈ reads, e.t < t0 + 1) :
    Camera.get_fps (Camera.updateLoop (Camera.init cid u v op t0) reads) = 0 := by
  have hz := fps_zero_within_window (Camera.init cid u v op t0) reads rfl (by simpa [Camera.init] using h)
  simp [Camera.get_fps, hz.1, roundTo2]

/-! Claim C9. -/

/-- Claim C9: after Camera.stop returns, is_running reports false, a
subsequent get_frame call returns the last-known frame (or none) without
crashing, and the capture loop makes no further progress against any read
schedule. -/
theorem C9_stop_safe (c : Camera) (evs : List ReadEvent) :
    Camera.is_running (Camera.stop c) = false
    ∧ Camera.get_frame (Camera.stop c) = c.frame
    ∧ Camera.updateLoop (Camera.stop c) evs = Camera.stop c :=
  ⟨rfl, rfl, updateLoop_of_not_running _ _ rfl⟩

/-! Source resolver lemmas and Claim C7. -/

lemma probeSources_result (env : Nat → DeviceBehavior) (l : List Nat) :
    (probeSources env l).1 = l.find? (fun i => (env i).opens && (env i).readOk) := by
  induction l with
  | nil => rfl
  | cons i rest ih =>
    cases ho : (env i).opens <;> cases hr : (env i).readOk <;>
      simp [probeSources, List.find?_cons, ho, hr, ih]

lemma probeSources_release_opens (env : Nat → DeviceBehavior) (l : List Nat) (i : Nat)
    (h : ProbeEvent.release i ∈ (probeSources env l).2) : (env i).opens = true := by
  induction l with
  | nil => simp [probeSources] at h
  | cons j rest ih =>
    cases ho : (env j).opens <;> cases hr : (env j).readOk <;>
        simp [probeSources, ho, hr] at h
    · exact ih h
    · exact ih h
    · rcases h with h | h
      · rw [h]; exact ho
      · exact ih h
    · rw [h]; exact ho

lemma probeSources_opened_released (env : Nat → DeviceBehavior) (l : List Nat) (i : Nat)
    (hm : ProbeEvent.acquire i ∈ (probeSources env l).2) (ho : (env i).opens = true) :
    ProbeEvent.release i ∈ (probeSources env l).2 := by
  induction l with
  | nil => simp [probeSources] at hm
  | cons j rest ih =>
    cases hoj : (env j).opens <;> cases hrj : (env j).readOk <;>
        simp [probeSources, hoj, hrj] at hm ⊢
    · rcases hm with hm | hm
      · rw [hm] at ho; rw [ho] at hoj; exact absurd hoj (by simp)
      · exact ih hm
    · rcases hm with hm | hm
      · rw [hm] at ho; rw [ho] at hoj; exact absurd hoj (by simp)
      · exact ih hm
    · rcases hm with hm | hm
      · exact Or.inl hm
      · exact Or.inr (ih hm)
    · exact hm

lemma probeSources_acquires_head (env : Nat → DeviceBehavior) (i : Nat) (rest : List Nat) :
    ProbeEvent.acquire i ∈ (probeSources env (i :: rest)).2 := by
  cases ho : (env i).opens <;> cases hr : (env i).readOk <;>
    simp [probeSources, ho, hr]

/-- Claim C7 (amended): with no explicit source the resolver probes local
device indices 0, 1, 2 in that order and returns the first index that both
opens and yields a frame, and none when no probe succeeds; every probed
device that opens is released even when its read fails, while a probed
device that fails to open receives no release call. -/
theorem C7_find_source (env : Nat → DeviceBehavior) :
    (find_source env).1 = [0, 1, 2].find? (fun i => (env i).opens && (env i).readOk)
    ∧ (∀ i, ProbeEvent.release i ∈ (find_source env).2 → (env i).opens = true)
    ∧ (∀ i, ProbeEvent.acquire i ∈ (find_source env).2 → (env i).opens = true →
        ProbeEvent.release i ∈ (find_source env).2)
    ∧ ProbeEvent.acquire 0 ∈ (find_source env).2 :=
  ⟨probeSources_result env _,
   fun i h => probeSources_release_opens env _ i h,
   fun i hm ho => probeSources_opened_released env _ i hm ho,
   probeSources_acquires_head env 0 _⟩

/-- Claim C7 counterexample: in an environment where device 0 fails to
open and device 1 works, the resolver probes device 0 (a capture is
constructed for it) but never calls release on it, refuting that every
probed device is released even on failure. -/
theorem C7_counterexample :
    (find_source envB).1 = some 1
    ∧ (find_source envB).2 = [ProbeEvent.acquire 0, ProbeEvent.acquire 1, ProbeEvent.release 1]
    ∧ (find_source envB).2.contains (ProbeEvent.release 0) = false := by
  decide

/-- Claim C7 witness: the amended theorem applied to the concrete
environment envB. -/
theorem C7_witness :
    (find_source envB).1 = some 1
    ∧ ProbeEvent.release 1 ∈ (find_source envB).2 := by
  have h := C7_find_source envB
  exact ⟨h.1.trans (by decide), h.2.2.1 1 (by decide) (by decide)⟩

/-! Claim C8. -/

lemma updateLoop_append (c : Camera) (l1 l2 : List ReadEvent) :
    Camera.updateLoop c (l1 ++ l2) = Camera.updateLoop (Camera.updateLoop c l1) l2 := by
  simp [Camera.updateLoop, List.foldl_append]

lemma window_progress (c : Camera) (reads : List ReadEvent)
    (hr : c.running = true)
    (hl : ∀ e ∈ reads, e.t < c.lastTime + 1)
    (hs : ∀ e ∈ reads, e.frame.isSome = true) :
    (Camera.updateLoop c reads).frameCount = c.frameCount + reads.length
    ∧ (Camera.updateLoop c reads).lastTime = c.lastTime
    ∧ (Camera.updateLoop c reads).fps = c.fps
    ∧ (Camera.updateLoop c reads).running = true := by
  induction reads generalizing c with
  | nil => exact ⟨rfl, rfl, rfl, hr⟩
  | cons e evs ih =>
    obtain ⟨f, hf⟩ := Option.isSome_iff_exists.mp (hs e (by simp))
    have he := hl e (by simp)
    have hnot : ¬ ((1 : ℚ) ≤ e.t - c.lastTime) := by linarith
    have hstep : Camera.updateStep c e
        = { c with frame := some f, frameCount := c.frameCount + 1 } := by
      simp [Camera.updateStep, hr, hf, hnot]
    simp only [Camera.updateLoop, List.foldl_cons] at ih ⊢
    rw [hstep]
    obtain ⟨g1, g2, g3, g4⟩ := ih { c with frame := some f, frameCount := c.frameCount + 1 }
      hr (fun e2 h2 => hl e2 (List.mem_cons_of_mem _ h2))
      (fun e2 h2 => hs e2 (List.mem_cons_of_mem _ h2))
    refine ⟨?_, g2, g3, g4⟩
    rw [g1]
    simp [List.length_cons]
    omega

/-- Claim C8: on a successful read that closes a window of at least one
second, the measured fps becomes the count of successful reads in the
window divided by the elapsed time, the count resets and a new window
starts; reads inside the window and failed reads leave fps untouched; and
a synthetic feed of exactly 30 successful reads in 1.0 second makes
get_fps report 30. -/
theorem C8_fps_window (c : Camera) (e : ReadEvent) (f : Frame) :
    (c.running = true → e.frame = some f → (1 : ℚ) ≤ e.t - c.lastTime →
      (Camera.updateStep c e).fps = ((c.frameCount : ℚ) + 1) / (e.t - c.lastTime)
      ∧ (Camera.updateStep c e).frameCount = 0
      ∧ (Camera.updateStep c e).lastTime = e.t)
    ∧ (c.running = true → e.frame = some f → e.t - c.lastTime < 1 →
      (Camera.updateStep c e).fps = c.fps)
    ∧ (c.running = true → e.frame = none → Camera.updateStep c e = c)
    ∧ Camera.get_fps (Camera.updateLoop (Camera.init 0 0 0 true 0) feed30) = 30 := by
  refine ⟨?_, ?_, ?_, ?_⟩
  · intro hr hf ht
    simp [Camera.updateStep, hr, hf, ht]
  · intro hr hf ht
    have hnot : ¬ ((1 : ℚ) ≤ e.t - c.lastTime) := by linarith
    simp [Camera.updateStep, hr, hf, hnot]
  · intro hr hf
    simp [Camera.updateStep, hr, hf]
  · have hfeed : feed30 = (List.range 29).map
        (fun (k : Nat) => ({ t := ((k : ℚ) + 1) / 30, frame := some k } : ReadEvent))
        ++ [{ t := ((29 : ℚ) + 1) / 30, frame := some 29 }] := by
      simp [feed30, List.range_succ]
    have hl : ∀ e2 ∈ (List.range 29).map
        (fun (k : Nat) => ({ t := ((k : ℚ) + 1) / 30, frame := some k } : ReadEvent)),
        e2.t < (Camera.init 0 0 0 true 0).lastTime + 1 := by
      intro e2 he2
      simp only [List.mem_map, List.mem_range] at he2
      obtain ⟨k, hk, rfl⟩ := he2
      show ((k : ℚ) + 1) / 30 < (Camera.init 0 0 0 true 0).lastTime + 1
      have hkq : (k : ℚ) < 29 := by exact_mod_cast hk
      rw [div_lt_iff₀ (by norm_num : (0 : ℚ) < 30)]
      simp [Camera.init]
      linarith
    have hs : ∀ e2 ∈ (List.range 29).map
        (fun (k : Nat) => ({ t := ((k : ℚ) + 1) / 30, frame := some k } : ReadEvent)),
        e2.frame.isSome = true := by
      intro e2 he2
      simp only [List.mem_map, List.mem_range] at he2
      obtain ⟨k, hk, rfl⟩ := he2
      rfl
    set c1 := Camera.updateLoop (Camera.init 0 0 0 true 0) ((List.range 29).map
        (fun (k : Nat) => ({ t := ((k : ℚ) + 1) / 30, frame := some k } : ReadEvent))) with hc1
    obtain ⟨g1, g2, g3, g4⟩ := window_progress (Camera.init 0 0 0 true 0) _ rfl hl hs
    rw [← hc1] at g1 g2 g3 g4
    have hcount : c1.frameCount = 29 := by
      rw [hc1, g1]; rfl
    have hlast : c1.lastTime = 0 := by
      rw [hc1, g2]; rfl
    have hcond : (1 : ℚ) ≤ ((29 : ℚ) + 1) / 30 - c1.lastTime := by
      rw [hlast]; norm_num
    have hstep30 : Camera.updateStep c1 { t := ((29 : ℚ) + 1) / 30, frame := some 29 }
        = { c1 with
            frame := some 29
            fps := ((c1.frameCount + 1 : ℕ) : ℚ) / (((29 : ℚ) + 1) / 30 - c1.lastTime)
            frameCount := 0
            lastTime := ((29 : ℚ) + 1) / 30 } := by
      simp [Camera.updateStep, g4, hcond]
    have hfps : ((c1.frameCount + 1 : ℕ) : ℚ) / (((29 : ℚ) + 1) / 30 - c1.lastTime) = 30 := by
      rw [hcount, hlast]; norm_num
    have hr30 : roundTo2 30 = 30 := by
      unfold roundTo2
      rw [show ((30 : ℚ) * 100) = ((3000 : ℕ) : ℚ) by norm_num, round_natCast]
      norm_num
    rw [hfeed, updateLoop_append, ← hc1]
    show Camera.get_fps (Camera.updateLoop c1 [{ t := ((29 : ℚ) + 1) / 30, frame := some 29 }]) = 30
    rw [show Camera.updateLoop c1 [{ t := ((29 : ℚ) + 1) / 30, frame := some 29 }]
        = Camera.updateStep c1 { t := ((29 : ℚ) + 1) / 30, frame := some 29 } from rfl]
    rw [hstep30]
    show roundTo2 (((c1.frameCount + 1 : ℕ) : ℚ) / (((29 : ℚ) + 1) / 30 - c1.lastTime)) = 30
    rw [hfps]
    exact hr30

/-- Claim C8 witness: the window theorem applied to a concrete camera that
has counted 29 reads when a read closes a two-second window. -/
theorem C8_witness :
    (Camera.updateStep { camA with frameCount := 29 } { t := 2, frame := some 3 }).fps = 15 := by
  have h := C8_fps_window { camA with frameCount := 29 } { t := 2, frame := some 3 } 3
  refine ((h.1 rfl rfl (by norm_num [camA, Camera.init])).1).trans ?_
  norm_num [camA, Camera.init]

/-! Claim C10. -/

/-- Claim C10: a freshly constructed Camera reports fps 0 for as long as
every capture-loop read happens within one second of construction (before
the first full measurement window), and consequently a successful
start-camera response built in that window always reports fps 0. -/
theorem C10_initial_fps (cid u v : Nat) (op : Bool) (t0 : ℚ) (reads : List ReadEvent)
    (h : ∀ e ∈ reads, e.t < t0 + 1) :
    Camera.get_fps (Camera.updateLoop (Camera.init cid u v op t0) reads) = 0
    ∧ ∀ (s : NsState) (sourceArg : Option Nat) (env : Nat → DeviceBehavior)
        (newCid : Nat) (q : ℚ),
        (cameraStartPost s u sourceArg env newCid t0 reads).2.1 = StartResp.started q →
        q = 0 := by
  constructor
  · exact get_fps_zero_within cid u v op t0 reads h
  · intro s sourceArg env newCid q hq
    rcases sourceArg with _ | v0
    · rcases hfs : (find_source env).1 with _ | v1
      · simp [cameraStartPost, hfs] at hq
      · simp [cameraStartPost, hfs] at hq
        rw [← hq]
        exact get_fps_zero_within newCid u v1 (env v1).opens t0 reads h
    · simp [cameraStartPost] at hq
      rw [← hq]
      exact get_fps_zero_within newCid u v0 (env v0).opens t0 reads h

/-- Claim C10 witness: the theorem applied to a camera constructed at time
0 whose only read happens half a second later. -/
theorem C10_witness :
    Camera.get_fps (Camera.updateLoop (Camera.init 0 1 5 true 0)
      [{ t := 1 / 2, frame := some 3 }]) = 0 :=
  (C10_initial_fps 0 1 5 true 0 [{ t := 1 / 2, frame := some 3 }]
    (by intro e he; simp only [List.mem_singleton] at he; subst he; norm_num)).1

/-! Registry lemmas. -/

lemma lookupKey_eraseKey_self {α : Type} (m : List (Nat × α)) (k : Nat) :
    lookupKey (eraseKey m k) k = none := by
  induction m with
  | nil => rfl
  | cons p rest ih =>
    rcases p with ⟨k0, v⟩
    by_cases h : k0 = k
    · simpa [eraseKey, List.filter_cons, h] using ih
    · simp only [eraseKey, List.filter_cons] at ih ⊢
      simp only [show (k0 != k) = true by simp [h], if_true]
      simpa [lookupKey, h] using ih

lemma lookupKey_setKey_self {α : Type} (m : List (Nat × α)) (k : Nat) (v : α) :
    lookupKey (setKey m k v) k = some v := by
  simp [setKey, lookupKey]

lemma mem_eraseKey {α : Type} (m : List (Nat × α)) (k : Nat) (p : Nat × α)
    (h : p ∈ eraseKey m k) : p ∈ m ∧ p.1 ≠ k := by
  have h2 := List.mem_filter.mp h
  exact ⟨h2.1, by simpa using h2.2⟩

/-! Claim C5. -/

/-- Claim C5: disconnecting a connection bound to a user clears that
user's stream flag, stops and deregisters the user's camera, and removes
the connection binding, each action a tolerated no-op when its target is
absent, and a second disconnect for the same connection changes nothing;
an unbound connection's disconnect changes nothing at all. -/
theorem C5_disconnect_cleanup (s : NsState) (sid : Nat) :
    (lookupKey s.sess sid = none → handle_disconnect s sid = (s, []))
    ∧ ∀ uid, lookupKey s.sess sid = some uid →
      ((∀ x ∈ (handle_disconnect s sid).1.streams, x ≠ uid)
      ∧ lookupKey (handle_disconnect s sid).1.cams uid = none
      ∧ lookupKey (handle_disconnect s sid).1.sess sid = none
      ∧ (∀ c0, lookupKey s.cams uid = some c0 →
          Camera.stop c0 ∈ (handle_disconnect s sid).1.retired
          ∧ (Camera.stop c0).running = false
          ∧ (handle_disconnect s sid).2 = [NsEvent.stopCam c0.cid])
      ∧ (lookupKey s.cams uid = none →
          (handle_disconnect s sid).1.cams = s.cams
          ∧ (handle_disconnect s sid).2 = [])
      ∧ handle_disconnect (handle_disconnect s sid).1 sid
          = ((handle_disconnect s sid).1, [])) := by
  constructor
  · intro h
    simp [handle_disconnect, h]
  · intro uid hb
    cases hc : lookupKey s.cams uid with
    | none =>
      have hd : handle_disconnect s sid
          = ({ cams := s.cams, retired := s.retired,
               streams := s.streams.filter (fun x => x != uid),
               sess := eraseKey s.sess sid }, []) := by
        simp [handle_disconnect, hb, hc]
      refine ⟨?_, ?_, ?_, ?_, ?_, ?_⟩
      · intro x hx
        rw [hd] at hx
        have := List.mem_filter.mp hx
        simpa using this.2
      · rw [hd]; exact hc
      · rw [hd]; exact lookupKey_eraseKey_self _ _
      · intro c0 h0
        exact absurd h0 (by simp)
      · intro _
        rw [hd]
        exact ⟨rfl, rfl⟩
      · rw [hd]
        simp [handle_disconnect, lookupKey_eraseKey_self]
    | some c0' =>
      have hd : handle_disconnect s sid
          = ({ cams := eraseKey s.cams uid, retired := Camera.stop c0' :: s.retired,
               streams := s.streams.filter (fun x => x != uid),
               sess := eraseKey s.sess sid }, [NsEvent.stopCam c0'.cid]) := by
        simp [handle_disconnect, hb, hc]
      refine ⟨?_, ?_, ?_, ?_, ?_, ?_⟩
      · intro x hx
        rw [hd] at hx
        have := List.mem_filter.mp hx
        simpa using this.2
      · rw [hd]; exact lookupKey_eraseKey_self _ _
      · rw [hd]; exact lookupKey_eraseKey_self _ _
      · intro c0 h0
        have hcc : c0 = c0' := by injection h0 with h0; exact h0.symm
        subst hcc
        rw [hd]
        exact ⟨List.mem_cons_self _ _, rfl, rfl⟩
      · intro h0
        exact absurd h0 (by simp)
      · rw [hd]
        simp [handle_disconnect, lookupKey_eraseKey_self]

/-- Claim C5 witness: the cleanup theorem applied to a state where session
1 is bound to user 7 with a registered camera and an active stream. -/
theorem C5_witness :
    lookupKey (handle_disconnect sBound 1).1.cams 7 = none
    ∧ lookupKey (handle_disconnect sBound 1).1.sess 1 = none
    ∧ (handle_disconnect sBound 1).2 = [NsEvent.stopCam camB.cid]
    ∧ handle_disconnect (handle_disconnect sBound 1).1 1 = ((handle_disconnect sBound 1).1, []) := by
  have h := (C5_disconnect_cleanup sBound 1).2 7 rfl
  exact ⟨h.2.1, h.2.2.1, (h.2.2.2.1 camB rfl).2.2, h.2.2.2.2.2⟩

/-! Claim C4. -/

/-- Claim C4 (amended): a start_stream event for a user with no registered
camera emits an error and neither sets the stream flag nor schedules a
StreamTask, but in both namespaces the connection-to-user binding is
recorded before the camera check, so the binding is created even on this
error path; with a registered camera the binding, the flag, the scheduled
task and the acknowledgement all happen. -/
theorem C4_start_stream_guard (s : NsState) (sid uid : Nat) (ex : String) :
    (lookupKey s.cams uid = none →
      (handle_start_stream s sid uid (some ex)).2 = [NsEvent.emitError "No active camera session"]
      ∧ (pushup_handle_start_stream s sid uid).2 = [NsEvent.emitError "No active camera session"]
      ∧ lookupKey (handle_start_stream s sid uid (some ex)).1.sess sid = some uid
      ∧ lookupKey (pushup_handle_start_stream s sid uid).1.sess sid = some uid
      ∧ (handle_start_stream s sid uid (some ex)).1.streams = s.streams
      ∧ (handle_start_stream s sid uid (some ex)).1.cams = s.cams
      ∧ NsEvent.startTask uid ∉ (handle_start_stream s sid uid (some ex)).2)
    ∧ (∀ c, lookupKey s.cams uid = some c →
        handle_start_stream s sid uid (some ex)
          = ({ s with sess := setKey s.sess sid uid, streams := insertStream s.streams uid },
             [NsEvent.startTask uid, NsEvent.emitStreamStarted])) := by
  constructor
  · intro h
    refine ⟨?_, ?_, ?_, ?_, ?_, ?_, ?_⟩ <;>
      simp [handle_start_stream, pushup_handle_start_stream, h, lookupKey_setKey_self]
  · intro c h
    simp [handle_start_stream, h]

/-- Claim C4 counterexample: in the empty state, a start_stream for user 7
on session 1 emits the error, yet the connection-to-user binding has been
created, refuting that the handler makes no state change. -/
theorem C4_counterexample :
    (handle_start_stream sEmpty 1 7 (some "pushup")).2
      = [NsEvent.emitError "No active camera session"]
    ∧ (handle_start_stream sEmpty 1 7 (some "pushup")).1.sess = [(1, 7)]
    ∧ sEmpty.sess = [] :=
  ⟨rfl, rfl, rfl⟩

/-- Claim C4 witness: the amended theorem applied to the empty state. -/
theorem C4_witness :
    (handle_start_stream sEmpty 1 7 (some "squat")).2
      = [NsEvent.emitError "No active camera session"]
    ∧ lookupKey (handle_start_stream sEmpty 1 7 (some "squat")).1.sess 1 = some 7
    ∧ (handle_start_stream sEmpty 1 7 (some "squat")).1.streams = sEmpty.streams := by
  have h := (C4_start_stream_guard sEmpty 1 7 "squat").1 rfl
  exact ⟨h.1, h.2.2.1, h.2.2.2.2.1⟩

/-! Claim C6. -/

/-- Claim C6: a request_frame for a user with no registered camera, or
whose camera is not running, yields exactly one error event and never a
frame message, in both namespaces; a frame message can only ever be
emitted when a running camera is registered for the user. -/
theorem C6_frame_request_guard (an render : Frame → Option Nat) (enc : Nat → Nat)
    (s : NsState) (uid : Nat) :
    (lookupKey s.cams uid = none →
      handle_frame_request an render enc s uid = [NsEvent.emitError "No active camera session"]
      ∧ pushup_handle_frame_request render enc s uid
          = [NsEvent.emitError "No active camera session"])
    ∧ (∀ cam, lookupKey s.cams uid = some cam → cam.running = false →
      handle_frame_request an render enc s uid = [NsEvent.emitError "Camera not running"]
      ∧ pushup_handle_frame_request render enc s uid = [NsEvent.emitError "Camera not running"])
    ∧ (∀ p, NsEvent.emitFrame p ∈ handle_frame_request an render enc s uid →
        ∃ cam, lookupKey s.cams uid = some cam ∧ cam.running = true) := by
  refine ⟨?_, ?_, ?_⟩
  · intro h
    exact ⟨by simp [handle_frame_request, h], by simp [pushup_handle_frame_request, h]⟩
  · intro cam h hr
    constructor <;>
      simp [handle_frame_request, pushup_handle_frame_request, h, Camera.is_running, hr]
  · intro p hp
    cases h : lookupKey s.cams uid with
    | none => simp [handle_frame_request, h] at hp
    | some cam =>
      refine ⟨cam, rfl, ?_⟩
      by_cases hr : cam.running = true
      · exact hr
      · exfalso
        have hr2 : cam.running = false := by simpa using hr
        simp [handle_frame_request, h, Camera.is_running, hr2] at hp

/-- Claim C6 witness: the guard theorem applied to the empty state and to
a state whose only camera is stopped. -/
theorem C6_witness :
    handle_frame_request (fun _ => none) (fun _ => none) id sEmpty 3
      = [NsEvent.emitError "No active camera session"]
    ∧ handle_frame_request (fun _ => none) (fun _ => none) id sStopped 1
      = [NsEvent.emitError "Camera not running"] :=
  ⟨((C6_frame_request_guard (fun _ => none) (fun _ => none) id sEmpty 3).1 rfl).1,
   ((C6_frame_request_guard (fun _ => none) (fun _ => none) id sStopped 1).2.1
     (Camera.stop camA) rfl rfl).1⟩

/-! Claim C1. -/

/-- Claim C1 (amended): in the camera namespace, a start-camera request
for a user who already has a camera first stops the old agent and removes
its registry entry, and only then creates and registers the new one (the
stop event precedes the creation event), every deregistered camera object
stays stopped, and afterwards exactly one live capture loop owned by the
user exists; in the pushup namespace the same request is instead rejected
with a 400 response, leaving the state untouched, so the old agent is
never stopped and no new agent is created there either — in both
namespaces at most one live capture loop per user ever runs. -/
theorem C1_single_camera (s : NsState) (u : Nat) (c0 : Camera) (srcv : Nat)
    (env : Nat → DeviceBehavior) (newCid : Nat) (t0 : ℚ) (reads : List ReadEvent)
    (hc : lookupKey s.cams u = some c0)
    (hret : ∀ c ∈ s.retired, c.running = false)
    (hown : ∀ p ∈ s.cams, p.2.userId = p.1) :
    (cameraStartPost s u (some srcv) env newCid t0 reads).2.2
      = [NsEvent.stopCam c0.cid, NsEvent.newCam newCid]
    ∧ (∀ c ∈ (cameraStartPost s u (some srcv) env newCid t0 reads).1.retired,
        c.running = false)
    ∧ (∃ cam, lookupKey (cameraStartPost s u (some srcv) env newCid t0 reads).1.cams u
        = some cam ∧ cam.cid = newCid ∧ cam.userId = u ∧ cam.running = true)
    ∧ liveLoops (cameraStartPost s u (some srcv) env newCid t0 reads).1 u = 1
    ∧ pushupCameraStartPost s u (some srcv) 7 newCid t0 reads
        = (s, StartResp.failed 400, []) := by
  set camNew := Camera.updateLoop (Camera.init newCid u srcv (env srcv).opens t0) reads
    with hcam
  obtain ⟨hpu, hpr, hpc⟩ :=
    updateLoop_preserves (Camera.init newCid u srcv (env srcv).opens t0) reads
  rw [← hcam] at hpu hpr hpc
  have huser : camNew.userId = u := hpu
  have hrun : camNew.running = true := hpr
  have hcid : camNew.cid = newCid := hpc
  have hres : cameraStartPost s u (some srcv) env newCid t0 reads
      = ({ cams := setKey (eraseKey s.cams u) u camNew,
           retired := Camera.stop c0 :: s.retired,
           streams := s.streams, sess := s.sess },
         StartResp.started (Camera.get_fps camNew),
         [NsEvent.stopCam c0.cid, NsEvent.newCam newCid]) := by
    simp [cameraStartPost, hc, hcam]
  refine ⟨by rw [hres], ?_, ?_, ?_, by simp [pushupCameraStartPost, hc]⟩
  · intro c hcm
    rw [hres] at hcm
    rcases List.mem_cons.mp hcm with rfl | hcm
    · rfl
    · exact hret c hcm
  · refine ⟨camNew, ?_, hcid, huser, hrun⟩
    rw [hres]
    exact lookupKey_setKey_self _ _ _
  · have hq : ownedRunning u camNew = true := by
      simp [ownedRunning, huser, hrun]
    have hrest : (((eraseKey s.cams u).map Prod.snd)
        ++ (Camera.stop c0 :: s.retired)).filter (ownedRunning u) = [] := by
      rw [List.filter_eq_nil_iff]
      intro a ha
      rcases List.mem_append.mp ha with ha | ha
      · rcases List.mem_map.mp ha with ⟨p, hp, rfl⟩
        obtain ⟨hp1, hp2⟩ := mem_eraseKey _ _ _ hp
        have hpo := hown p hp1
        simp [ownedRunning, hpo, hp2]
      · rcases List.mem_cons.mp ha with rfl | ha
        · simp [ownedRunning, Camera.stop]
        · simp [ownedRunning, hret a ha]
    rw [hres]
    show (((setKey (eraseKey s.cams u) u camNew).map Prod.snd
        ++ (Camera.stop c0 :: s.retired)).filter (ownedRunning u)).length = 1
    rw [show (setKey (eraseKey s.cams u) u camNew).map Prod.snd
        = camNew :: (eraseKey s.cams u).map Prod.snd by simp [setKey, eraseKey, List.filter_filter]]
    rw [List.cons_append, List.filter_cons_of_pos hq, hrest]
    rfl

/-- Claim C1 counterexample: in the pushup namespace, a start request for
user 1, who already has a running camera, is rejected: the state is
returned unchanged with a 400 response and no events, so the old agent is
not stopped and no new agent is created or registered. -/
theorem C1_counterexample :
    pushupCameraStartPost sOne 1 (some 3) 7 9 0 [] = (sOne, StartResp.failed 400, [])
    ∧ lookupKey sOne.cams 1 = some camA
    ∧ camA.running = true :=
  ⟨rfl, rfl, rfl⟩

/-- Claim C1 witness: the amended theorem applied to a state where user 1
already has a running camera. -/
theorem C1_witness :
    (cameraStartPost sOne 1 (some 3) envB 9 0 []).2.2
      = [NsEvent.stopCam camA.cid, NsEvent.newCam 9]
    ∧ liveLoops (cameraStartPost sOne 1 (some 3) envB 9 0 []).1 1 = 1 := by
  have h := C1_single_camera sOne 1 camA 3 envB 9 0 [] rfl
    (by intro c hcm; simp [sOne] at hcm)
    (by intro p hp; simp [sOne] at hp; rw [hp]; rfl)
  exact ⟨h.1, h.2.2.2.1⟩

/-! Claim C3. -/

lemma stream_frames_payloads (an : Frame → Option Nat) (enc : Nat → Nat) (ticks : List Tick) :
    framePayloads (stream_frames an enc ticks)
      = (ticks.takeWhile tickOk).filterMap
          (fun u => u.jpeg.map
            (fun j => [MsgField.image (enc j), MsgField.analysis (u.raw.bind an)])) := by
  induction ticks with
  | nil => rfl
  | cons t ts ih =>
    by_cases hg : (t.running && t.active) = true
    · by_cases hx : t.raises = true
      · have hok : tickOk t = false := by simp [tickOk, hx]
        simp [stream_frames, hg, hx, framePayloads, List.takeWhile_cons, hok]
      · have hxf : t.raises = false := by simpa using hx
        have hok : tickOk t = true := by simp [tickOk, hg, hxf]
        cases hj : t.jpeg with
        | none =>
          simp only [stream_frames, hg, hxf, hj, if_true, Bool.false_eq_true, if_false,
            List.takeWhile_cons, hok, List.filterMap_cons]
          simpa [hj] using ih
        | some j =>
          simp only [stream_frames, hg, hxf, hj, Bool.false_eq_true, if_false, if_true,
            List.takeWhile_cons, hok, List.filterMap_cons]
          simpa [framePayloads] using ih
    · have hg2 : (t.running && t.active) = false := by simpa using hg
      have hok : tickOk t = false := by simp [tickOk, hg2]
      simp [stream_frames, hg2, framePayloads, List.takeWhile_cons, hok]

lemma pushup_stream_no_analysis (enc : Nat → Nat) (ticks : List Tick) :
    ((pushup_stream_frames enc ticks).1.any msgHasAnalysis) = false := by
  induction ticks with
  | nil => rfl
  | cons t ts ih =>
    by_cases hg : (t.running && t.active) = true
    · by_cases hx : t.raises = true
      · simp [pushup_stream_frames, hg, hx]
      · have hxf : t.raises = false := by simpa using hx
        cases hj : t.jpeg with
        | none => simpa [pushup_stream_frames, hg, hxf, hj] using ih
        | some j => simp [pushup_stream_frames, hg, hxf, hj, msgHasAnalysis, ih]
    · have hg2 : (t.running && t.active) = false := by simpa using hg
      simp [pushup_stream_frames, hg2]

/-- Claim C3 (amended): the camera-namespace streaming loop emits exactly
the frame messages of the guarded, non-raising tick prefix — one message
per tick with an available frame, carrying the encoded image and the raw
frame's analysis or null, followed by the fixed 33 ms yield; a guarded
tick with no frame is skipped without erroring; a raising tick produces
only the error log and terminates the loop; a tick observing a cleared
active flag produces nothing at all.  The pushup-namespace loop instead
pushes messages that never carry an analysis field, and a raising tick
there terminates the loop uncaught, without any log event. -/
theorem C3_stream_loop (an : Frame → Option Nat) (enc : Nat → Nat)
    (ticks ts : List Tick) (t : Tick) :
    framePayloads (stream_frames an enc ticks)
      = (ticks.takeWhile tickOk).filterMap
          (fun u => u.jpeg.map
            (fun j => [MsgField.image (enc j), MsgField.analysis (u.raw.bind an)]))
    ∧ ((t.running && t.active) = true → t.raises = true →
        stream_frames an enc (t :: ts) = [StreamEvent.errorLog])
    ∧ ((t.running && t.active) = true → t.raises = false → t.jpeg = none →
        stream_frames an enc (t :: ts) = stream_frames an enc ts)
    ∧ ((t.running && t.active) = true → t.raises = false → ∀ j, t.jpeg = some j →
        stream_frames an enc (t :: ts)
          = StreamEvent.frame [MsgField.image (enc j), MsgField.analysis (t.raw.bind an)]
            :: StreamEvent.sleep 33 :: stream_frames an enc ts)
    ∧ (t.active = false → stream_frames an enc (t :: ts) = [])
    ∧ ((pushup_stream_frames enc ticks).1.any msgHasAnalysis) = false
    ∧ ((t.running && t.active) = true → t.raises = true →
        pushup_stream_frames enc (t :: ts) = ([], true)) := by
  refine ⟨stream_frames_payloads an enc ticks, ?_, ?_, ?_, ?_,
    pushup_stream_no_analysis enc ticks, ?_⟩
  · intro hg hx
    simp [stream_frames, hg, hx]
  · intro hg hx hj
    simp [stream_frames, hg, hx, hj]
  · intro hg hx j hj
    simp [stream_frames, hg, hx, hj]
  · intro ha
    simp [stream_frames, ha]
  · intro hg hx
    simp [pushup_stream_frames, hg, hx]

/-- Claim C3 counterexample: on a healthy tick with an available frame the
pushup-namespace loop pushes a frame message, and no message it pushes
carries an analysis field at all, refuting that each pushed message
carries the analysis result or null. -/
theorem C3_counterexample :
    (pushup_stream_frames Nat.succ [tickGood]).1
      = [StreamEvent.frame [MsgField.image 6], StreamEvent.sleep 33]
    ∧ (pushup_stream_frames Nat.succ [tickGood]).1.any msgHasAnalysis = false :=
  ⟨rfl, rfl⟩

/-- Claim C3 witness: the loop theorem applied to concrete one-tick
schedules. -/
theorem C3_witness :
    stream_frames (fun _ => some 0) Nat.succ [tickRaise] = [StreamEvent.errorLog]
    ∧ framePayloads (stream_frames (fun _ => some 0) Nat.succ [tickGood])
        = [[MsgField.image 6, MsgField.analysis (some 0)]]
    ∧ stream_frames (fun _ => some 0) Nat.succ [{ tickGood with active := false }] = [] := by
  have h1 := C3_stream_loop (fun _ => some 0) Nat.succ [tickGood] [] tickRaise
  have h2 := C3_stream_loop (fun _ => some 0) Nat.succ [tickGood] []
    { tickGood with active := false }
  exact ⟨h1.2.1 rfl rfl, h1.1.trans (by rfl), h2.2.2.2.2.1 rfl⟩

/-! Claim C2. -/

lemma neg_pi_lt_atan2 (y x : ℝ) : -Real.pi < atan2 y x :=
  Complex.neg_pi_lt_arg _

lemma atan2_le_pi (y x : ℝ) : atan2 y x ≤ Real.pi :=
  Complex.arg_le_pi _

/-- Claim C2: the joint-angle computation is symmetric in its endpoints
and its result always lies between 0 and 180 degrees. -/
theorem C2_angle_symmetric_bounded (p1 p2 p3 : ℝ × ℝ) :
    calculate_joint_angle p1 p2 p3 = calculate_joint_angle p3 p2 p1
    ∧ 0 ≤ calculate_joint_angle p1 p2 p3
    ∧ calculate_joint_angle p1 p2 p3 ≤ 180 := by
  have hpi := Real.pi_pos
  have hk : (0 : ℝ) < 180 / Real.pi := div_pos (by norm_num) hpi
  set a1 := atan2 (p1.2 - p2.2) (p1.1 - p2.1) with ha1
  set a3 := atan2 (p3.2 - p2.2) (p3.1 - p2.1) with ha3
  have hb1l : -Real.pi < a1 := neg_pi_lt_atan2 _ _
  have hb1u : a1 ≤ Real.pi := atan2_le_pi _ _
  have hb3l : -Real.pi < a3 := neg_pi_lt_atan2 _ _
  have hb3u : a3 ≤ Real.pi := atan2_le_pi _ _
  have hd : |a3 - a1| < 2 * Real.pi := abs_lt.mpr ⟨by linarith, by linarith⟩
  have e1 : calculate_joint_angle p1 p2 p3
      = if 180 < |(a3 - a1) * (180 / Real.pi)| then 360 - |(a3 - a1) * (180 / Real.pi)|
        else |(a3 - a1) * (180 / Real.pi)| := rfl
  have e2 : calculate_joint_angle p3 p2 p1
      = if 180 < |(a1 - a3) * (180 / Real.pi)| then 360 - |(a1 - a3) * (180 / Real.pi)|
        else |(a1 - a3) * (180 / Real.pi)| := rfl
  have habs : |(a1 - a3) * (180 / Real.pi)| = |(a3 - a1) * (180 / Real.pi)| := by
    rw [abs_mul, abs_mul, abs_sub_comm]
  have hA : |(a3 - a1) * (180 / Real.pi)| = |a3 - a1| * (180 / Real.pi) := by
    rw [abs_mul, abs_of_pos hk]
  have h360 : |(a3 - a1) * (180 / Real.pi)| < 360 := by
    rw [hA]
    have hlt := mul_lt_mul_of_pos_right hd hk
    have heq : 2 * Real.pi * (180 / Real.pi) = 360 := by
      field_simp
      ring
    linarith
  have h0 : 0 ≤ |(a3 - a1) * (180 / Real.pi)| := abs_nonneg _
  refine ⟨?_, ?_, ?_⟩
  · rw [e1, e2, habs]
  · rw [e1]
    by_cases h : 180 < |(a3 - a1) * (180 / Real.pi)|
    · rw [if_pos h]; linarith
    · rw [if_neg h]; exact h0
  · rw [e1]
    by_cases h : 180 < |(a3 - a1) * (180 / Real.pi)|
    · rw [if_pos h]; linarith
    · rw [if_neg h]; linarith [le_of_not_lt h]

end MoveRight
